import Mathlib

/-!
Verification of the ArgueSage tournament/debate core against its
natural-language specification.

The Python source (app.py, debate_engine.py) is shallowly embedded:
dictionaries become structures, in-place mutation becomes functional
update, and the external generation/evaluation service (Gemini) is
modelled as oracle parameters (functions supplied by the caller), since
the spec treats it as a black box.  Fields that the modelled code never
reads (timestamps, prompt strings, descriptions, icons) are elided.
-/

namespace ArgueSage

/-! ## Python numeric helpers

`round(x, 1)` in Python rounds half to even; `int(x)` truncates toward
zero.  Both are modelled on `ℚ`. -/

/-- Python `round` to an integer: round half to even (banker's rounding). -/
def pyRoundHalfEven (q : ℚ) : ℤ :=
  let f : ℤ := ⌊q⌋
  let r : ℚ := q - f
  if r < 1/2 then f
  else if r > 1/2 then f + 1
  else if f % 2 = 0 then f else f + 1

/-- Python `round(x, 1)`: one decimal place, half to even. -/
def pyRound1 (q : ℚ) : ℚ :=
  (pyRoundHalfEven (10 * q) : ℚ) / 10

/-- Python `int(x)`: truncation toward zero. -/
def pyInt (q : ℚ) : ℤ :=
  if 0 ≤ q then ⌊q⌋ else -⌊-q⌋

/-! ## Bracket data model (app.py)

Matches/rounds/brackets are Python dicts; the fields below are the ones
the bracket code reads or writes.  `winner` is `None` until decided. -/

/-- A tournament match (`app.py` match dict). -/
structure TMatch where
  id : String
  participant1 : String
  participant2 : String
  winner : Option String
  status : String
  motion : Option String
  scores : Option (ℤ × ℤ)
  deriving Repr, DecidableEq

/-- A bracket round (`app.py` round dict); `matchList` renders the Python
key `'matches'` (a Lean keyword). -/
structure TRound where
  round_number : Nat
  name : String
  matchList : List TMatch
  status : String
  deriving Repr, DecidableEq

/-- A bracket (`app.py`: `{'rounds': ..., 'type': ...}`). -/
structure TBracket where
  rounds : List TRound
  btype : String
  deriving Repr, DecidableEq

/-- `math.ceil(math.log2 n)` of `app.py:380`: the least `k` with `n ≤ 2^k`
(searched directly; exact for every `Nat`, as the float computation is for
the sizes in play). -/
def ceilLog2 (n : Nat) : Nat :=
  ((List.range (n + 1)).find? (fun k => n ≤ 2 ^ k)).getD 0

/-- Sequential pairing of `app.py:394-396`: `for i in range(0, len, 2)`,
with `participant2 = "BYE"` when `i + 1` runs past the end. -/
def pairUp : List String → List (String × String)
  | [] => []
  | [a] => [(a, "BYE")]
  | a :: b :: rest => (a, b) :: pairUp rest

/-- One match of `app.py:398-417`: a BYE in the second slot completes the
match immediately with `participant1` as winner. -/
def mkElimMatch (roundNumber idx : Nat) (p : String × String) : TMatch :=
  { id := "r" ++ toString roundNumber ++ "_m" ++ toString (idx + 1)
    participant1 := p.1
    participant2 := p.2
    winner := if p.2 = "BYE" then some p.1 else none
    status := if p.2 = "BYE" then "completed"
              else if roundNumber = 1 then "pending" else "waiting"
    motion := none
    scores := none }

/-- The winners carried to the next round by `app.py:409-415`: BYE matches
contribute `participant1`; undecided matches contribute `None`, and the
`None`s are dropped by the filter at `app.py:430`. -/
def nextRoundParticipants (pairs : List (String × String)) : List String :=
  pairs.filterMap (fun p => if p.2 = "BYE" then some p.1 else none)

/-- Round name of `app.py:419-421`. -/
def elimRoundName (numParticipants roundNumber : Nat) : String :=
  if numParticipants = 4 then "Semi-Final"
  else if numParticipants = 2 then "Final"
  else "Round " ++ toString roundNumber

/-- One iteration's round record of `app.py:390-428`. -/
def mkElimRound (current : List String) (roundNumber : Nat) : TRound :=
  { round_number := roundNumber
    name := elimRoundName current.length roundNumber
    matchList := (pairUp current).enum.map
      (fun ip => mkElimMatch roundNumber ip.1 ip.2)
    status := if roundNumber = 1 then "pending" else "waiting" }

/-- The `while len(current_participants) > 1` loop of `app.py:390-431`,
with an explicit iteration bound (structural fuel) so that concrete
brackets evaluate inside the kernel.  `buildRounds_eq` below shows the
bound never cuts the loop short. -/
def buildRoundsAux : Nat → List String → Nat → List TRound
  | 0, _, _ => []
  | fuel + 1, current, roundNumber =>
    if 1 < current.length then
      mkElimRound current roundNumber ::
        buildRoundsAux fuel (nextRoundParticipants (pairUp current))
          (roundNumber + 1)
    else []

def buildRounds (current : List String) (roundNumber : Nat) : List TRound :=
  buildRoundsAux current.length current roundNumber

/-- `create_single_elimination_bracket` (`app.py:366-433`); participants are
already plain name strings (the name extraction of `app.py:372-377` is the
identity on strings). -/
def create_single_elimination_bracket (participants : List String) : TBracket :=
  if participants.length < 2 then { rounds := [], btype := "single_elimination" }
  else
    let bracketSize := 2 ^ ceilLog2 participants.length
    let padded := participants ++
      List.replicate (bracketSize - participants.length) "BYE"
    { rounds := buildRounds padded 1, btype := "single_elimination" }

/-- `create_round_robin_bracket` (`app.py:643-670`): all unordered pairs in
one round named "Round Robin". -/
def create_round_robin_bracket (participants : List String) : TBracket :=
  let pairs := (participants.enum.map (fun ip =>
    (participants.drop (ip.1 + 1)).map (fun q => (ip.2, q)))).flatten
  { rounds := [{ round_number := 1
                 name := "Round Robin"
                 matchList := pairs.enum.map (fun ip =>
                   { id := "rr_m" ++ toString (ip.1 + 1)
                     participant1 := ip.2.1
                     participant2 := ip.2.2
                     winner := none
                     status := "pending"
                     motion := none
                     scores := none })
                 status := "pending" }]
    btype := "round_robin" }

/-- `create_elimination_bracket` (`app.py:357-364`): double elimination is
aliased to single elimination. -/
def create_elimination_bracket (participants : List String)
    (tournament_type : String) : TBracket :=
  if tournament_type = "single_elimination" then
    create_single_elimination_bracket participants
  else if tournament_type = "double_elimination" then
    create_single_elimination_bracket participants
  else
    create_round_robin_bracket participants

/-! ## Tournaments (app.py)

A tournament participant record (`app.py:264-272/309-317`); `skill_level`
and `joined_at` are never read by the modelled operations and are elided. -/

structure TParticipant where
  name : String
  matches_played : Nat
  matches_won : Nat
  total_points : ℤ
  win_rate : ℚ
  deriving Repr, DecidableEq

/-- The tournament fields read or written by `start_tournament` and
`complete_tournament_match` (`app.py:254-279`); registration metadata
(id, name, deadlines, prize pool) is elided. -/
structure Tournament where
  participants : List TParticipant
  tournament_type : String
  status : String
  brackets : TBracket
  current_round : Nat
  completed_matches : Nat
  total_matches : Nat
  deriving Repr, DecidableEq

/-- `start_tournament` (`app.py:331-355`) on an existing tournament: build
the bracket from the participant names (the extraction loop of
`app.py:339-344` yields exactly the `name` fields), set `active`, and count
`total_matches` as the sum over all rounds of the number of matches. -/
def start_tournament (t : Tournament) : Tournament :=
  let participants := t.participants.map (·.name)
  let bracket := create_elimination_bracket participants t.tournament_type
  { t with
    brackets := bracket
    status := "active"
    total_matches :=
      if bracket.rounds = [] then 0
      else (bracket.rounds.map (fun r => r.matchList.length)).sum }

/-- First match with the given id, scanning rounds then matches in order
(`app.py:2742-2749`). -/
def findMatch (rounds : List TRound) (match_id : String) : Option TMatch :=
  (rounds.map (·.matchList)).flatten.find? (fun m => m.id = match_id)

/-- Replace the first match with the given id inside one round's match
list, reporting whether it was found. -/
def updateFirstInMatches (f : TMatch → TMatch) (match_id : String) :
    List TMatch → List TMatch × Bool
  | [] => ([], false)
  | m :: rest =>
    if m.id = match_id then (f m :: rest, true)
    else
      let r := updateFirstInMatches f match_id rest
      (m :: r.1, r.2)

/-- Replace the first match with the given id across the rounds, mirroring
the in-place mutation of the object found at `app.py:2742-2749`. -/
def updateFirstMatch (f : TMatch → TMatch) (match_id : String) :
    List TRound → List TRound
  | [] => []
  | r :: rest =>
    let u := updateFirstInMatches f match_id r.matchList
    if u.2 then { r with matchList := u.1 } :: rest
    else r :: updateFirstMatch f match_id rest

/-- `complete_tournament_match` (`app.py:2725-2817`).  The two speech
strings only gate the request (both must be non-empty) and feed the AI
judge; the judge's `random.randint(60, 90)` scores are modelled as the
oracle inputs `score1`/`score2`.  Returns `none` for the 404 `Match not
found` branch.  The winner is `participant1` iff `score1 > score2`; the
match is overwritten in place, `completed_matches` incremented, and both
named participants' stats updated.  Nothing else is touched: no winner is
propagated to any later round and no round status is changed. -/
def complete_tournament_match (t : Tournament) (match_id : String)
    (score1 score2 : ℤ) (motion : String) : Option Tournament :=
  match findMatch t.brackets.rounds match_id with
  | none => none
  | some m =>
    let winner := if score1 > score2 then m.participant1 else m.participant2
    let rounds := updateFirstMatch
      (fun mm => { mm with
        winner := some winner
        status := "completed"
        scores := some (score1, score2)
        motion := some motion }) match_id t.brackets.rounds
    let participants := t.participants.map (fun p =>
      if p.name = m.participant1 then
        { p with
          matches_played := p.matches_played + 1
          total_points := p.total_points + score1
          matches_won :=
            p.matches_won + (if winner = m.participant1 then 1 else 0) }
      else if p.name = m.participant2 then
        { p with
          matches_played := p.matches_played + 1
          total_points := p.total_points + score2
          matches_won :=
            p.matches_won + (if winner = m.participant2 then 1 else 0) }
      else p)
    some { t with
      brackets := { t.brackets with rounds := rounds }
      completed_matches := t.completed_matches + 1
      participants := participants }

/-! ## Legacy bracket (app.py:196-238) -/

/-- Pairing of `app.py:218-228`: `for i in range(0, len, 2)` guarded by
`if i + 1 < len`, so a trailing odd participant is silently dropped. -/
def pairUpStrict : List String → List (String × String)
  | a :: b :: rest => (a, b) :: pairUpStrict rest
  | _ => []

/-- The legacy bracket dict (`app.py:205-214`); `code`, `format` and
`created_at` are elided (identifier generation and clock). -/
structure LegacyBracket where
  name : String
  participants : List String
  rounds : List TRound
  status : String
  current_round : Nat
  deriving Repr, DecidableEq

/-- `create_tournament_bracket` (`app.py:196-238`).  `random.shuffle` is
externalized: `participants_list` is the participant list in its
post-shuffle order.  Only full pairs become matches; the legacy match dict
has no scores, modelled as `none`. -/
def create_tournament_bracket (tournament_name : String)
    (participants_list : List String) : LegacyBracket :=
  { name := tournament_name
    participants := participants_list
    rounds := [{ round_number := 1
                 name := "First Round"
                 matchList := (pairUpStrict participants_list).enum.map
                   (fun ip =>
                     { id := "r1_m" ++ toString (ip.1 + 1)
                       participant1 := ip.2.1
                       participant2 := ip.2.2
                       winner := none
                       status := "pending"
                       motion := none
                       scores := none })
                 status := "pending" }]
    status := "upcoming"
    current_round := 0 }

/-! ## Debate engine (debate_engine.py)

The Gemini collaborator is a black box per the spec; every call into it
is modelled as an oracle argument (the string/score it would return).
Timestamps are elided. -/

/-- A speech entry (`debate_engine.py:58-63/72-77/93-98`); `stype` renders
the Python key `'type'`. -/
structure Speech where
  speaker : String
  stype : String
  content : String
  deriving Repr, DecidableEq

/-- A POI record (`debate_engine.py:121-126`). -/
structure POIRecord where
  user_poi : String
  ai_decision : String
  ai_response : String
  deriving Repr, DecidableEq

/-- A debate session (`debate_engine.py:38-53`); `id` and times elided. -/
structure DebateSession where
  motion : String
  format : String
  difficulty : String
  user_position : String
  ai_position : String
  current_speaker : String
  round : Nat
  speeches : List Speech
  pois : List POIRecord
  status : String
  speech_order : List String
  deriving Repr, DecidableEq

/-- A debate format (`debate_engine.py:391-474`): the fields the session
logic reads (`speech_order`, `first_speaker`); timing/team metadata is
inert. -/
structure DebateFormat where
  key : String
  speech_order : List String
  first_speaker : String
  deriving Repr, DecidableEq

/-- The `'british_parliamentary'` entry of `_load_debate_formats`, also
the default of the `.get` at `debate_engine.py:33`. -/
def british_parliamentary : DebateFormat :=
  { key := "british_parliamentary"
    speech_order := ["OG1", "OO1", "OG2", "OO2", "CG1", "CO1", "CG2", "CO2"]
    first_speaker := "government" }

/-- `_load_debate_formats` (`debate_engine.py:391-474`), keyed list. -/
def debate_formats : List DebateFormat :=
  [ british_parliamentary
  , { key := "policy_debate"
      speech_order := ["1AC", "1NC", "2AC", "2NC", "1NR", "1AR", "2NR", "2AR"]
      first_speaker := "government" }
  , { key := "public_forum"
      speech_order := ["Pro Team 1", "Con Team 1", "Pro Team 2", "Con Team 2",
                       "Pro Rebuttal", "Con Rebuttal", "Pro Summary",
                       "Con Summary"]
      first_speaker := "government" }
  , { key := "asian_parliamentary"
      speech_order := ["Gov 1", "Opp 1", "Mem 1", "Gov 2", "Opp 2", "Mem 2",
                       "Gov Reply", "Opp Reply"]
      first_speaker := "government" }
  , { key := "worlds_schools"
      speech_order := ["Prop 1", "Opp 1", "Prop 2", "Opp 2", "Prop 3",
                       "Opp 3", "Opp Reply", "Prop Reply"]
      first_speaker := "government" } ]

/-- `self.debate_formats.get(format_type, ...british_parliamentary...)`
(`debate_engine.py:33`). -/
def getFormat (format_type : String) : DebateFormat :=
  (debate_formats.find? (fun f => f.key = format_type)).getD
    british_parliamentary

/-- `start_debate` (`debate_engine.py:31-67`).  `aiOpening` is the oracle
value for the generated opening speech used when the AI side starts. -/
def start_debate (aiOpening : String) (motion format_type difficulty
    user_position : String) : DebateSession :=
  let fmt := getFormat format_type
  let s : DebateSession :=
    { motion := motion
      format := format_type
      difficulty := difficulty
      user_position := user_position
      ai_position :=
        if user_position = "government" then "opposition" else "government"
      current_speaker :=
        if fmt.first_speaker = "government" ∧ user_position = "government"
        then "user" else "ai"
      round := 1
      speeches := []
      pois := []
      status := "in_progress"
      speech_order := fmt.speech_order }
  if s.current_speaker = "ai" then
    { s with
      speeches := s.speeches ++ [⟨"ai", "constructive", aiOpening⟩]
      current_speaker := "user"
      round := s.round + 1 }
  else s

/-- `process_user_speech` (`debate_engine.py:69-109`).  `aiResp` is the
oracle value the generation collaborator would return; the speech
evaluation (`feedback`) is returned verbatim from the evaluation
collaborator and does not touch the session, so it is not modelled.
Returns the updated session and the `ai_response` field of the result
(`None` when no AI speech was generated). -/
def process_user_speech (aiResp : String) (s : DebateSession)
    (speech_text speech_type : String) : DebateSession × Option String :=
  let s1 := { s with
    speeches := s.speeches ++ [⟨"user", speech_type, speech_text⟩] }
  let step :=
    if s1.round < s1.speech_order.length then
      ({ s1 with
          speeches := s1.speeches ++ [⟨"ai", "constructive", aiResp⟩]
          round := s1.round + 1 }, some aiResp)
    else (s1, (none : Option String))
  let s2 := step.1
  if s2.speech_order.length ≤ s2.round then
    ({ s2 with status := "completed" }, step.2)
  else (s2, step.2)

/-- `process_poi` (`debate_engine.py:111-134`): appends a POI record built
from the collaborator's decision/response regardless of the decision, and
touches nothing else. -/
def process_poi (decision response : String) (s : DebateSession)
    (poi_text : String) : DebateSession × Bool :=
  ({ s with pois := s.pois ++ [⟨poi_text, decision, response⟩] },
   decision = "ACCEPT")

/-- The final-evaluation payload (`debate_engine.py:235-242/263-270`);
`debate_duration` is wall-clock derived and elided. -/
structure FinalEvaluation where
  overall_score : ℚ
  detailed_feedback : String
  points : ℤ
  speech_count : Nat
  poi_count : Nat
  deriving Repr, DecidableEq

/-- `_generate_final_evaluation` (`debate_engine.py:212-270`).  `evalScore`
is the oracle for `self.gemini.evaluate_speech(...).overall_score` (an
`int` in the source) and `fb` for its `detailed_feedback`, both keyed by
speech content.  With no user speeches it returns the zero evaluation
with the explicit no-speeches marker; otherwise each score is offset by
`-15`, averaged, reported rounded to one decimal, and converted to points
by `int(avg * 0.5)`. -/
def generate_final_evaluation (evalScore : String → ℤ) (fb : String → String)
    (s : DebateSession) : FinalEvaluation :=
  let user_speeches := s.speeches.filter (fun sp => sp.speaker = "user")
  if user_speeches.isEmpty then
    { overall_score := 0
      detailed_feedback :=
        "No speeches to evaluate. This may be due to session storage issues."
      points := 0
      speech_count := 0
      poi_count := s.pois.length }
  else
    let total_score : ℤ :=
      (user_speeches.map (fun sp => evalScore sp.content - 15)).sum
    let avg_score : ℚ := (total_score : ℚ) / (user_speeches.length : ℚ)
    { overall_score := pyRound1 avg_score
      detailed_feedback :=
        String.intercalate "\n\n" (user_speeches.map (fun sp => fb sp.content))
      points := pyInt (avg_score * (1/2))
      speech_count := user_speeches.length
      poi_count := s.pois.length }

/-- `end_debate` (`debate_engine.py:136-144`): force `completed`, then
evaluate. -/
def end_debate (evalScore : String → ℤ) (fb : String → String)
    (s : DebateSession) : FinalEvaluation × DebateSession :=
  let s1 := { s with status := "completed" }
  (generate_final_evaluation evalScore fb s1, s1)

/-! ## Leaderboard aggregator (app.py:672-717, global branch) -/

/-- A global-leaderboard entry: a copied participant record plus the two
aggregation counters added by the fold (`app.py:697-699`). -/
structure LBEntry where
  name : String
  matches_played : Nat
  matches_won : Nat
  total_points : ℤ
  win_rate : ℚ
  tournaments_participated : Nat
  tournaments_won : Nat
  deriving Repr, DecidableEq

/-- The non-collision branch (`app.py:696-700`): copy the record, add the
counters. -/
def newEntry (p : TParticipant) : LBEntry :=
  { name := p.name
    matches_played := p.matches_played
    matches_won := p.matches_won
    total_points := p.total_points
    win_rate := p.win_rate
    tournaments_participated := 1
    tournaments_won := if p.matches_won > 0 then 1 else 0 }

/-- The collision branch (`app.py:688-694`): sum the stat fields and bump
the counters in the existing entry. -/
def mergeInto (e : LBEntry) (p : TParticipant) : LBEntry :=
  { e with
    total_points := e.total_points + p.total_points
    matches_played := e.matches_played + p.matches_played
    matches_won := e.matches_won + p.matches_won
    tournaments_participated := e.tournaments_participated + 1
    tournaments_won :=
      e.tournaments_won + (if p.matches_won > 0 then 1 else 0) }

/-- Processing one participant record (`app.py:684-700`): the `next(...)`
lookup updates the first entry with a matching name in place, otherwise
the copy is appended at the end. -/
def addParticipant : List LBEntry → TParticipant → List LBEntry
  | [], p => [newEntry p]
  | e :: rest, p =>
    if e.name = p.name then mergeInto e p :: rest
    else e :: addParticipant rest p

/-- Win-rate recomputation (`app.py:702-707`). -/
def computeWinRate (e : LBEntry) : LBEntry :=
  { e with
    win_rate :=
      if e.matches_played > 0 then
        pyRound1 ((e.matches_won : ℚ) / (e.matches_played : ℚ) * 100)
      else 0 }

/-- `get_tournament_leaderboard` (`app.py:672-717`), global branch: the
registry's tournaments are passed as their participant lists (iteration
order of `tournaments.values()`).  `list.sort(key, reverse=True)` is a
stable descending sort, modelled by `mergeSort` with a `≥`-comparator. -/
def get_tournament_leaderboard_global (ts : List (List TParticipant))
    (sort_by : String) : List LBEntry :=
  let all_participants :=
    ts.foldl (fun acc t => t.foldl addParticipant acc) []
  let rated := all_participants.map computeWinRate
  if sort_by = "points" then
    rated.mergeSort (fun a b => decide (b.total_points ≤ a.total_points))
  else if sort_by = "wins" then
    rated.mergeSort (fun a b => decide (b.matches_won ≤ a.matches_won))
  else if sort_by = "winrate" then
    rated.mergeSort (fun a b => decide (b.win_rate ≤ a.win_rate))
  else rated

/-! ## Achievement rule engine (debate_engine.py:146-155, 272-358)

The criteria dict maps named predicates to thresholds; an absent key is
vacuously satisfied.  `Option` fields model key presence. -/

/-- A criteria dict (`debate_engine.py:827-894` and the checks of
`_check_achievement_criteria`).  For `all_formats`/`all_lessons` the
source requires the key to be present *and* truthy; for `quick_start`
presence alone triggers the check. -/
structure Criteria where
  min_debates : Option Nat := none
  min_points : Option ℤ := none
  min_lessons : Option Nat := none
  min_pois : Option Nat := none
  avg_score : Option ℚ := none
  different_formats : Option Nat := none
  min_advanced_lessons : Option Nat := none
  perfect_streak : Option Nat := none
  all_formats : Option Bool := none
  all_lessons : Option Bool := none
  quick_start : Option Bool := none
  score_improvement : Option ℚ := none
  debate_marathon : Option Nat := none
  deriving Repr, DecidableEq

/-- An achievement definition (`debate_engine.py:827-894`); description
and icon are inert strings and elided. -/
structure Achievement where
  id : String
  aname : String
  criteria : Criteria
  points : ℤ
  deriving Repr, DecidableEq

/-- `_load_achievements` (`debate_engine.py:827-894`). -/
def achievements : List Achievement :=
  [ ⟨"first_lesson", "First Steps", { min_lessons := some 1 }, 10⟩
  , ⟨"quick_learner", "Quick Learner", { min_lessons := some 5 }, 25⟩
  , ⟨"debate_scholar", "Debate Scholar", { min_lessons := some 10 }, 50⟩
  , ⟨"first_debate", "First Debate", { min_debates := some 1 }, 20⟩
  , ⟨"debate_veteran", "Debate Veteran", { min_debates := some 10 }, 100⟩
  , ⟨"high_scorer", "High Scorer", { avg_score := some 85 }, 75⟩
  , ⟨"point_collector", "Point Collector", { min_points := some 500 }, 50⟩
  , ⟨"master_debater", "Master Debater", { min_points := some 1000 }, 200⟩ ]

/-- One record of `user_profile['debate_history']`: the fields the
criteria checks read.  `overall_score` is `result.get('overall_score',0)`
and `poisCount` is `len(debate.get('pois', []))`. -/
structure DebateRecord where
  format : String
  overall_score : ℚ
  poisCount : Nat
  deriving Repr, DecidableEq

/-- An entry of `completed_lessons`: the source accepts both lesson-id
strings (looked up via `get_lesson`) and inline lesson dicts
(`debate_engine.py:310-319`). -/
inductive LessonEntry where
  | ref (id : String)
  | inline (difficulty : String)
  deriving Repr, DecidableEq

/-- A lesson as `_load_lessons` returns it (`debate_engine.py:476-825`):
id, level and difficulty are the fields the engine consults; the content
strings are inert. -/
structure Lesson where
  id : String
  level : String
  difficulty : String
  deriving Repr, DecidableEq

/-- `_load_lessons` (`debate_engine.py:476-825`), reduced to the consulted
fields: nine lessons, three per level. -/
def lessons : List Lesson :=
  [ ⟨"debate_basics_1", "beginner", "beginner"⟩
  , ⟨"debate_basics_2", "beginner", "beginner"⟩
  , ⟨"debate_basics_3", "beginner", "beginner"⟩
  , ⟨"debate_intermediate_1", "intermediate", "intermediate"⟩
  , ⟨"debate_intermediate_2", "intermediate", "intermediate"⟩
  , ⟨"debate_intermediate_3", "intermediate", "intermediate"⟩
  , ⟨"debate_advanced_1", "advanced", "advanced"⟩
  , ⟨"debate_advanced_2", "advanced", "advanced"⟩
  , ⟨"debate_advanced_3", "advanced", "advanced"⟩ ]

/-- `get_lesson` (`debate_engine.py:20-25`). -/
def get_lesson (lesson_id : String) : Option Lesson :=
  lessons.find? (fun l => l.id = lesson_id)

/-- The user-profile fields the achievement engine reads
(`debate_engine.py:272-358`). -/
structure UserProfile where
  level : String
  points : ℤ
  achievements : List Achievement
  completed_lessons : List LessonEntry
  debate_history : List DebateRecord
  deriving Repr, DecidableEq

/-- Python `l[-k:]` (used at `debate_engine.py:326/354`): the trailing
window of `k` elements, the whole list when `k = 0`. -/
def pyTail (l : List α) (k : Nat) : List α :=
  if k = 0 then l else l.drop (l.length - k)

/-- `_check_achievement_criteria` (`debate_engine.py:272-358`): each key
present in the criteria dict must pass; the blocks appear in source
order.  `decide` turns each comparison into the source's boolean test. -/
def check_achievement_criteria (a : Achievement) (p : UserProfile) : Bool :=
  let criteria := a.criteria
  let debate_history := p.debate_history
  let completed_lessons := p.completed_lessons
  (match criteria.min_debates with
   | some k => decide (k ≤ debate_history.length)
   | none => true) &&
  (match criteria.min_points with
   | some k => decide (k ≤ p.points)
   | none => true) &&
  (match criteria.min_lessons with
   | some k => decide (k ≤ completed_lessons.length)
   | none => true) &&
  (match criteria.min_pois with
   | some k => decide (k ≤ (debate_history.map (·.poisCount)).sum)
   | none => true) &&
  (match criteria.avg_score with
   | some k =>
     !debate_history.isEmpty &&
     decide (k ≤ (debate_history.map (·.overall_score)).sum /
       (debate_history.length : ℚ))
   | none => true) &&
  (match criteria.different_formats with
   | some k => decide (k ≤ (debate_history.map (·.format)).dedup.length)
   | none => true) &&
  (match criteria.min_advanced_lessons with
   | some k => decide (k ≤ (completed_lessons.filter (fun le =>
       match le with
       | .ref i => match get_lesson i with
                   | some lobj => lobj.difficulty = "advanced"
                   | none => false
       | .inline d => d = "advanced")).length)
   | none => true) &&
  (match criteria.perfect_streak with
   | some k =>
     let recent_scores :=
       (pyTail debate_history k).map (·.overall_score)
     decide (k ≤ recent_scores.length) &&
     !(recent_scores.any (fun s => decide (s < 95)))
   | none => true) &&
  (match criteria.all_formats with
   | some b =>
     !b ||
     (["british_parliamentary", "policy_debate", "public_forum"].all
       (fun f => (debate_history.map (·.format)).contains f))
   | none => true) &&
  (match criteria.all_lessons with
   | some b =>
     !b || decide (lessons.length ≤ completed_lessons.length)
   | none => true) &&
  (match criteria.quick_start with
   | some _ => !completed_lessons.isEmpty && decide (50 ≤ p.points)
   | none => true) &&
  (match criteria.score_improvement with
   | some k =>
     match debate_history.reverse with
     | latest :: previous :: _ =>
       decide (k ≤ latest.overall_score - previous.overall_score)
     | _ => false
   | none => true) &&
  (match criteria.debate_marathon with
   | some k => decide (k ≤ (pyTail debate_history k).length)
   | none => true)

/-- `check_achievements` (`debate_engine.py:146-155`): each known
achievement not already held (dedup by id) that passes its criteria, in
definition order. -/
def check_achievements (p : UserProfile) : List Achievement :=
  achievements.filter (fun a =>
    !(p.achievements.any (fun h => h.id == a.id)) &&
    check_achievement_criteria a p)

/-- State-passing wrapper for `check_achievements`: the source contains no
assignment to `user_profile` or any of its members, so the faithful
state-threaded translation returns the profile it was given.  The second
component makes the (absence of) mutation observable to theorems. -/
def check_achievements_run (p : UserProfile) : List Achievement × UserProfile :=
  (check_achievements p, p)

/-! ## Helper definitions used by the verification -/

/-- A fresh participant record as `join_tournament` creates it
(`app.py:309-317`): zeroed stats. -/
def freshParticipant (n : String) : TParticipant :=
  { name := n, matches_played := 0, matches_won := 0, total_points := 0
    win_rate := 0 }

/-- A tournament in `registration` as `create_tournament` leaves it
(`app.py:254-279`), with the given members and kind; `brackets` is `None`
until started, modelled by the empty bracket. -/
def registrationTournament (names : List String)
    (tournament_type : String) : Tournament :=
  { participants := names.map freshParticipant
    tournament_type := tournament_type
    status := "registration"
    brackets := { rounds := [], btype := tournament_type }
    current_round := 0
    completed_matches := 0
    total_matches := 0 }

/-- The concrete five-participant single-elimination tournament of the
spec's scenario, as started by the code. -/
def sampleT5 : Tournament :=
  start_tournament
    (registrationTournament ["A", "B", "C", "D", "E"] "single_elimination")

/-- `sampleT5` after recording results for the two real first-round
matches (scores 80-70, so the first slot wins each). -/
def sampleT5Completed : Option Tournament :=
  (complete_tournament_match sampleT5 "r1_m1" 80 70 "motion one").bind
    (fun t => complete_tournament_match t "r1_m2" 80 70 "motion two")

/-- Fold a list of `submitSpeech` inputs (speech text, speech type, AI
oracle response) through `process_user_speech`, keeping the session. -/
def runSpeeches (s : DebateSession)
    (inputs : List (String × String × String)) : DebateSession :=
  inputs.foldl (fun st i => (process_user_speech i.2.2 st i.1 i.2.1).1) s

/-- Two-step list induction matching `pairUpStrict`'s recursion. -/
def twoStepInduction {α : Type} {motive : List α → Prop}
    (nil : motive []) (single : ∀ a, motive [a])
    (cons2 : ∀ a b rest, motive rest → motive (a :: b :: rest)) :
    ∀ l, motive l
  | [] => nil
  | [a] => single a
  | a :: b :: rest => cons2 a b rest (twoStepInduction nil single cons2 rest)

/-- First leaderboard entry with the given name (the `next(...)` lookup of
`app.py:686`). -/
def lbFind (l : List LBEntry) (n : String) : Option LBEntry :=
  l.find? (fun e => e.name = n)

/-- Reference fold of the per-tournament records of one name, mirroring
the collision/new-entry branches: used to state what the global fold
computes per name. -/
def foldRecords (init : Option LBEntry) (recs : List TParticipant) :
    Option LBEntry :=
  recs.foldl (fun o p =>
    some (match o with
          | some e => mergeInto e p
          | none => newEntry p)) init

/-- All records bearing a name, across all tournaments in order. -/
def recordsOf (ts : List (List TParticipant)) (n : String) :
    List TParticipant :=
  ts.flatten.filter (fun p => p.name = n)

/-- `n` concrete `submitSpeech` inputs for the scenario runs. -/
def sampleInputs (n : Nat) : List (String × String × String) :=
  (List.range n).map (fun i =>
    ("user speech " ++ toString i, "constructive", "ai reply " ++ toString i))

/-- The scenario session: British Parliamentary, human on government, so
the human speaks first (`first_speaker = government`). -/
def scenarioSession : DebateSession :=
  start_debate "unused opening" "This house believes in testing"
    "british_parliamentary" "intermediate" "government"

/-- The scenario session after seven `submitSpeech` calls: the code's
actual completion point (`round` has reached 8). -/
def scenarioSessionDone : DebateSession :=
  runSpeeches scenarioSession (sampleInputs 7)

/-- The session invariant behind C8: the round counter is bounded by the
speech order length, and `completed` status coincides with the counter
having reached it. -/
def DebateInv (s : DebateSession) : Prop :=
  s.round ≤ s.speech_order.length ∧
  (s.status = "completed" ↔ s.round = s.speech_order.length)

/-- A session with no speeches at all (zero human speeches). -/
def sessionNoUserSpeeches : DebateSession :=
  { motion := "M"
    format := "british_parliamentary"
    difficulty := "intermediate"
    user_position := "government"
    ai_position := "opposition"
    current_speaker := "user"
    round := 1
    speeches := []
    pois := []
    status := "in_progress"
    speech_order := british_parliamentary.speech_order }

/-- A session holding two human speeches (contents "x" and "y") and one
AI speech. -/
def sessionTwoUserSpeeches : DebateSession :=
  { sessionNoUserSpeeches with
    speeches := [⟨"user", "constructive", "x"⟩, ⟨"ai", "constructive", "z"⟩,
                 ⟨"user", "rebuttal", "y"⟩] }

/-- A concrete evaluation oracle: 80 for speech "x", 90 otherwise. -/
def scoreOracle : String → ℤ := fun c => if c = "x" then 80 else 90

/-! ## Infrastructure lemmas -/

theorem pairUp_length (l : List String) :
    (pairUp l).length = (l.length + 1) / 2 := by
  induction l using pairUp.induct with
  | case1 => simp [pairUp]
  | case2 a => simp [pairUp]
  | case3 a b rest ih =>
      simp only [pairUp, List.length_cons, ih]
      omega

theorem nextRoundParticipants_length_le (pairs : List (String × String)) :
    (nextRoundParticipants pairs).length ≤ pairs.length :=
  List.length_filterMap_le _ _

theorem buildRoundsAux_congr :
    ∀ (fuel fuel' : Nat) (current : List String) (roundNumber : Nat),
      current.length ≤ fuel → current.length ≤ fuel' →
      buildRoundsAux fuel current roundNumber =
        buildRoundsAux fuel' current roundNumber := by
  intro fuel
  induction fuel with
  | zero =>
      intro fuel' current rn h h'
      have : current.length = 0 := Nat.le_zero.mp h
      cases fuel' with
      | zero => rfl
      | succ f' => simp [buildRoundsAux, this]
  | succ f ih =>
      intro fuel' current rn h h'
      cases fuel' with
      | zero =>
          have : current.length = 0 := Nat.le_zero.mp h'
          simp [buildRoundsAux, this]
      | succ f' =>
          by_cases hc : 1 < current.length
          · have hnext : (nextRoundParticipants (pairUp current)).length
                ≤ current.length - 1 := by
              have h1 := nextRoundParticipants_length_le (pairUp current)
              have h2 := pairUp_length current
              omega
            simp only [buildRoundsAux, if_pos hc]
            rw [ih f' _ _ (by omega) (by omega)]
          · simp [buildRoundsAux, if_neg hc]

/-- The loop-step unfolding: the fuelled definition satisfies exactly the
recurrence of the Python `while` loop. -/
theorem buildRounds_eq (current : List String) (roundNumber : Nat) :
    buildRounds current roundNumber =
      if 1 < current.length then
        mkElimRound current roundNumber ::
          buildRounds (nextRoundParticipants (pairUp current))
            (roundNumber + 1)
      else [] := by
  by_cases hc : 1 < current.length
  · have hnext : (nextRoundParticipants (pairUp current)).length
        ≤ current.length - 1 := by
      have h1 := nextRoundParticipants_length_le (pairUp current)
      have h2 := pairUp_length current
      omega
    unfold buildRounds
    obtain ⟨n, hn⟩ : ∃ n, current.length = n + 1 := ⟨current.length - 1, by omega⟩
    rw [hn]
    simp only [buildRoundsAux, if_pos hc, if_pos hc]
    rw [buildRoundsAux_congr n _ _ _ (by omega) (le_refl _)]
    rw [if_pos (hn ▸ hc)]
  · unfold buildRounds
    rw [if_neg hc]
    cases hl : current.length with
    | zero => rfl
    | succ n =>
        simp only [buildRoundsAux]
        rw [if_neg hc]

/-- Every round the loop produces is an iteration record. -/
theorem mem_buildRoundsAux {fuel : Nat} {current : List String} {rn : Nat}
    {r : TRound} (h : r ∈ buildRoundsAux fuel current rn) :
    ∃ cur' rn', r = mkElimRound cur' rn' := by
  induction fuel generalizing current rn with
  | zero => simp [buildRoundsAux] at h
  | succ f ih =>
      unfold buildRoundsAux at h
      split at h
      · rcases List.mem_cons.mp h with h | h
        · exact ⟨current, rn, h⟩
        · exact ih h
      · simp at h

/-- Within any iteration record, a match whose second slot is the BYE
sentinel is completed with the first slot as winner. -/
theorem bye_match_completed {cur : List String} {rn : Nat} {m : TMatch}
    (hm : m ∈ (mkElimRound cur rn).matchList)
    (hb : m.participant2 = "BYE") :
    m.status = "completed" ∧ m.winner = some m.participant1 := by
  simp only [mkElimRound, List.mem_map] at hm
  obtain ⟨ip, _, rfl⟩ := hm
  simp only [mkElimMatch] at hb ⊢
  simp [hb]

/-! ## Claim theorems -/

/-- C1 (code_bug evidence).  The claim: for n participants the bracket has
`ceil(log2 n)` rounds, and for 5 participants Round 2 is "Semi-Final" and
Round 3 is "Final".  The code instead drops the undecided-winner
placeholders (`app.py:430` filters out the `None`s meant to "be filled by
winner"), so rounds exist only as far as BYE winners propagate: for
`["A","B","C","D","E"]` it builds exactly 2 rounds — Round 1 with 4
matches (bracket size `2^ceilLog2 5 = 8`, 3 byes, as claimed) and then a
"Final" that already pairs the bye-carried "E" against "BYE" — instead of
the claimed 3 rounds with a "Semi-Final". -/
theorem c1_five_participant_bracket_divergence :
    ceilLog2 5 = 3 ∧
    (create_single_elimination_bracket ["A", "B", "C", "D", "E"]).rounds.length
      = 2 ∧
    ((create_single_elimination_bracket ["A", "B", "C", "D", "E"]).rounds.map
      (fun r => (r.name, r.matchList.length))) =
      [("Round 1", 4), ("Final", 1)] := by
  decide

/-- C2 (code_bug evidence).  The claim: once every match of round k is
completed, the winners sit in round k+1's slots and round k is
`completed`.  In the code `complete_tournament_match` only overwrites the
match itself and the participant stats; no winner is propagated and no
round status is recomputed.  Concretely: after recording results for the
two real first-round matches of the five-participant tournament (winners
"A" and "C"), every round-1 match is `completed`, yet round 1 still says
"pending" and the next round's only match still pairs "E" with "BYE" —
neither "A" nor "C" occupies any slot of it. -/
theorem c2_winners_not_advanced :
    (sampleT5Completed.map (fun t =>
      t.brackets.rounds.map (fun r =>
        (r.status, r.matchList.map
          (fun m => (m.status, m.participant1, m.participant2)))))) =
    some
      [("pending",
        [("completed", "A", "B"), ("completed", "C", "D"),
         ("completed", "E", "BYE"), ("completed", "BYE", "BYE")]),
       ("waiting", [("completed", "E", "BYE")])] := by
  decide

/-- C5 counterexample.  The claim says bye matches are not counted toward
`total_matches`; but `start_tournament` sums every match of every round:
the started five-participant tournament has 3 bye matches, 2 real
matches, and `total_matches = 5`, not 2. -/
theorem c5_byes_counted_counterexample :
    sampleT5.total_matches = 5 ∧
    ((sampleT5.brackets.rounds.map (fun r =>
      (r.matchList.filter (fun m => m.participant2 ≠ "BYE")).length)).sum
      = 2) ∧
    sampleT5.total_matches ≠
      ((sampleT5.brackets.rounds.map (fun r =>
        (r.matchList.filter (fun m => m.participant2 ≠ "BYE")).length)).sum) := by
  decide

/-- C5 amended: in every freshly built single-elimination bracket, every
match whose second slot is BYE is `completed` with `winner = participant1`;
however, bye matches ARE counted toward `total_matches` when the
tournament is started — `start_tournament` counts every match of every
round. -/
theorem c5_amended_bye_matches :
    (∀ (participants : List String) (r : TRound) (m : TMatch),
      r ∈ (create_single_elimination_bracket participants).rounds →
      m ∈ r.matchList → m.participant2 = "BYE" →
      m.status = "completed" ∧ m.winner = some m.participant1) ∧
    (∀ t : Tournament,
      (start_tournament t).total_matches =
        ((start_tournament t).brackets.rounds.map
          (fun r => r.matchList.length)).sum) := by
  constructor
  · intro participants r m hr hm hb
    unfold create_single_elimination_bracket at hr
    split at hr
    · simp at hr
    · obtain ⟨cur', rn', rfl⟩ := mem_buildRoundsAux hr
      exact bye_match_completed hm hb
  · intro t
    unfold start_tournament
    by_cases h :
      (create_elimination_bracket (t.participants.map (·.name))
        t.tournament_type).rounds = []
    · simp [h]
    · simp [h]

/-- Witness for `c5_amended_bye_matches`: the bye "Final" of the started
five-participant tournament. -/
theorem c5_amended_bye_matches_witness :
    ((⟨"r2_m1", "E", "BYE", some "E", "completed", none, none⟩ : TMatch).status
        = "completed" ∧
      (⟨"r2_m1", "E", "BYE", some "E", "completed", none, none⟩ : TMatch).winner
        = some (⟨"r2_m1", "E", "BYE", some "E", "completed", none,
            none⟩ : TMatch).participant1) ∧
    sampleT5.total_matches =
      ((sampleT5.brackets.rounds.map (fun r => r.matchList.length)).sum) :=
  ⟨c5_amended_bye_matches.1 ["A", "B", "C", "D", "E"]
      ⟨2, "Final",
        [⟨"r2_m1", "E", "BYE", some "E", "completed", none, none⟩],
        "waiting"⟩
      ⟨"r2_m1", "E", "BYE", some "E", "completed", none, none⟩
      (by decide) (by decide) rfl,
   c5_amended_bye_matches.2
      (registrationTournament ["A", "B", "C", "D", "E"] "single_elimination")⟩

theorem pairUpStrict_length (l : List String) :
    (pairUpStrict l).length = l.length / 2 := by
  induction l using twoStepInduction with
  | nil => simp [pairUpStrict]
  | single a => simp [pairUpStrict]
  | cons2 a b rest ih =>
      simp only [pairUpStrict, List.length_cons, ih]
      omega

/-- For an odd-length list of distinct names, an element is covered by a
strict pair exactly when it is not the last element. -/
theorem pairUpStrict_mem_iff (l : List String) (hodd : l.length % 2 = 1)
    (hnd : l.Nodup) (p : String) (hp : p ∈ l) :
    (∃ pr ∈ pairUpStrict l, pr.1 = p ∨ pr.2 = p) ↔ l.getLast? ≠ some p := by
  induction l using twoStepInduction with
  | nil => simp at hp
  | single a =>
      simp only [List.mem_singleton] at hp
      subst hp
      simp [pairUpStrict]
  | cons2 a b rest ih =>
      have hrodd : rest.length % 2 = 1 := by
        simp only [List.length_cons] at hodd
        omega
      have hrne : rest ≠ [] := by
        intro h
        rw [h] at hrodd
        simp at hrodd
      obtain ⟨c, rest', rfl⟩ : ∃ c rest', rest = c :: rest' := by
        cases rest with
        | nil => exact absurd rfl hrne
        | cons c r => exact ⟨c, r, rfl⟩
      have hglast : (a :: b :: c :: rest').getLast? = (c :: rest').getLast? := by
        rw [List.getLast?_cons_cons, List.getLast?_cons_cons]
      have ha_notin : a ∉ b :: c :: rest' := (List.nodup_cons.mp hnd).1
      have hnd_rest := (List.nodup_cons.mp hnd).2
      have hb_notin : b ∉ c :: rest' := (List.nodup_cons.mp hnd_rest).1
      have hnd_rest' := (List.nodup_cons.mp hnd_rest).2
      rw [hglast]
      rcases List.mem_cons.mp hp with rfl | hp'
      · constructor
        · intro _
          intro hsome
          exact ha_notin (List.mem_cons_of_mem b
            (List.mem_of_mem_getLast? hsome))
        · intro _
          exact ⟨(p, b), by simp [pairUpStrict], Or.inl rfl⟩
      · rcases List.mem_cons.mp hp' with rfl | hp''
        · constructor
          · intro _
            intro hsome
            exact hb_notin (List.mem_of_mem_getLast? hsome)
          · intro _
            exact ⟨(a, p), by simp [pairUpStrict], Or.inr rfl⟩
        · have hane : a ≠ p := fun h =>
            ha_notin (h ▸ List.mem_cons_of_mem b hp'')
          have hbne : b ≠ p := fun h => hb_notin (h ▸ hp'')
          rw [← ih hrodd hnd_rest' hp'']
          constructor
          · rintro ⟨pr, hpr, hps⟩
            rcases List.mem_cons.mp hpr with rfl | hpr'
            · rcases hps with h | h
              · exact absurd h hane
              · exact absurd h hbne
            · exact ⟨pr, hpr', hps⟩
          · rintro ⟨pr, hpr, hps⟩
            exact ⟨pr, List.mem_cons_of_mem _ hpr, hps⟩

/-- C10: the legacy bracket on an odd number of distinct participants:
one round, `⌊n/2⌋` matches, and exactly the last (post-shuffle)
participant appears in no match; the caller receives a normal bracket (a
non-empty round list, status `upcoming`), no error or empty-bracket
signal (`api_create_tournament` only rejects fewer than 2 participants,
`app.py:2832`). -/
theorem c10_legacy_bracket_drops_last (tname : String) (ps : List String)
    (hodd : ps.length % 2 = 1) (_h3 : 3 ≤ ps.length) (hnd : ps.Nodup) :
    ∃ r, (create_tournament_bracket tname ps).rounds = [r] ∧
      r.matchList.length = ps.length / 2 ∧
      (∀ p ∈ ps,
        (∃ m ∈ r.matchList, m.participant1 = p ∨ m.participant2 = p) ↔
          ps.getLast? ≠ some p) := by
  refine ⟨_, rfl, ?_, ?_⟩
  · simp [create_tournament_bracket, pairUpStrict_length]
  · intro p hp
    rw [← pairUpStrict_mem_iff ps hodd hnd p hp]
    constructor
    · rintro ⟨m, hm, hs⟩
      simp only [List.mem_map] at hm
      obtain ⟨ip, hip, rfl⟩ := hm
      refine ⟨ip.2, ?_, hs⟩
      have h2 : ip.2 ∈ List.map Prod.snd (pairUpStrict ps).enum :=
        List.mem_map_of_mem Prod.snd hip
      rwa [List.enum_map_snd] at h2
    · rintro ⟨pr, hpr, hs⟩
      have h2 : pr ∈ List.map Prod.snd (pairUpStrict ps).enum := by
        rw [List.enum_map_snd]
        exact hpr
      obtain ⟨ip, hip, hsnd⟩ := List.mem_map.mp h2
      refine ⟨_, List.mem_map_of_mem _ hip, ?_⟩
      simp only []
      rw [hsnd]
      exact hs

/-- Witness for `c10_legacy_bracket_drops_last` at `["A", "B", "C"]`. -/
theorem c10_legacy_bracket_drops_last_witness :
    ∃ r, (create_tournament_bracket "T" ["A", "B", "C"]).rounds = [r] ∧
      r.matchList.length = 1 ∧
      (∀ p ∈ ["A", "B", "C"],
        (∃ m ∈ r.matchList, m.participant1 = p ∨ m.participant2 = p) ↔
          (["A", "B", "C"] : List String).getLast? ≠ some p) :=
  c10_legacy_bracket_drops_last "T" ["A", "B", "C"]
    (by decide) (by decide) (by decide)

/-- C3 counterexample: in the BP session where the human starts, after 4
`submitSpeech` calls the round counter is 5 and the session is still
`in_progress` — not round 8 / `completed` as claimed.  Each call appends
one user and one AI speech but increments `round` only once
(`debate_engine.py:99`), so 4 calls take it from 1 to 5. -/
theorem c3_after_four_calls_not_completed :
    (runSpeeches scenarioSession (sampleInputs 4)).round = 5 ∧
    (runSpeeches scenarioSession (sampleInputs 4)).status = "in_progress" ∧
    ((runSpeeches scenarioSession (sampleInputs 4)).speeches.filter
      (fun sp => sp.speaker = "user")).length = 4 ∧
    ((runSpeeches scenarioSession (sampleInputs 4)).speeches.filter
      (fun sp => sp.speaker = "ai")).length = 4 ∧
    ¬((runSpeeches scenarioSession (sampleInputs 4)).round = 8 ∧
      (runSpeeches scenarioSession (sampleInputs 4)).status = "completed") := by
  decide

/-- C3 amended: with `speech_order` of length 8 and the human speaking
first, each of the first 4 `submitSpeech` calls appends a user+AI speech
pair and increments `round` by one, so after 4 calls there are 4 user and
4 AI speeches, `round = 5`, and the session is still `in_progress`; the
session completes when `round` reaches 8, which happens on the 7th
call. -/
theorem c3_amended_round_five_after_four :
    ∀ (aiOpen motion difficulty : String)
      (i1 i2 i3 i4 j1 j2 j3 : String × String × String),
      (runSpeeches (start_debate aiOpen motion "british_parliamentary"
        difficulty "government") [i1, i2, i3, i4]).round = 5 ∧
      (runSpeeches (start_debate aiOpen motion "british_parliamentary"
        difficulty "government") [i1, i2, i3, i4]).status = "in_progress" ∧
      ((runSpeeches (start_debate aiOpen motion "british_parliamentary"
        difficulty "government") [i1, i2, i3, i4]).speeches.filter
          (fun sp => sp.speaker = "user")).length = 4 ∧
      ((runSpeeches (start_debate aiOpen motion "british_parliamentary"
        difficulty "government") [i1, i2, i3, i4]).speeches.filter
          (fun sp => sp.speaker = "ai")).length = 4 ∧
      (runSpeeches (start_debate aiOpen motion "british_parliamentary"
        difficulty "government") [i1, i2, i3, i4, j1, j2, j3]).round = 8 ∧
      (runSpeeches (start_debate aiOpen motion "british_parliamentary"
        difficulty "government")
        [i1, i2, i3, i4, j1, j2, j3]).status = "completed" := by
  intro aiOpen motion difficulty i1 i2 i3 i4 j1 j2 j3
  refine ⟨?_, ?_, ?_, ?_, ?_, ?_⟩ <;>
    simp [runSpeeches, process_user_speech, start_debate, getFormat,
      debate_formats, british_parliamentary]

/-- C4 (code_bug evidence).  The claim: a `submitSpeech` to a `completed`
session is rejected with no mutation.  `process_user_speech` has no
status guard and the `/debate/speech` route performs no check either: on
the session completed by its 7th call, another call appends the user
speech (15 speeches, the new last one being the submitted text), returns
no AI response, and reports success — the session is mutated, not
rejected. -/
theorem c4_submit_after_completion_mutates :
    scenarioSessionDone.status = "completed" ∧
    (process_user_speech "late ai" scenarioSessionDone "late speech"
      "constructive").1.speeches.length
      = scenarioSessionDone.speeches.length + 1 ∧
    (((process_user_speech "late ai" scenarioSessionDone "late speech"
      "constructive").1.speeches.getLast?).map
        (fun sp => (sp.speaker, sp.content))) = some ("user", "late speech") ∧
    (process_user_speech "late ai" scenarioSessionDone "late speech"
      "constructive").2 = none := by
  decide

theorem getFormat_speech_order_length (ft : String) :
    (getFormat ft).speech_order.length = 8 := by
  have h : ∀ f ∈ debate_formats, f.speech_order.length = 8 := by decide
  unfold getFormat
  cases hf : debate_formats.find? (fun f => f.key = ft) with
  | none =>
      simp only [Option.getD_none]
      exact h british_parliamentary (List.mem_cons_self _ _)
  | some f =>
      simp only [Option.getD_some]
      exact h f (List.mem_of_find?_eq_some hf)

theorem start_debate_inv (aiOpen motion format_type difficulty
    user_position : String) :
    DebateInv (start_debate aiOpen motion format_type difficulty
      user_position) := by
  have hlen := getFormat_speech_order_length format_type
  unfold start_debate DebateInv
  by_cases hfs : (getFormat format_type).first_speaker = "government"
      ∧ user_position = "government"
  · simp only [if_pos hfs]
    constructor
    · show 1 ≤ (getFormat format_type).speech_order.length
      omega
    · constructor
      · intro hcon
        have hx : ("in_progress" : String) = "completed" := hcon
        exact absurd hx (by decide)
      · intro hrd
        have hx : 1 = (getFormat format_type).speech_order.length := hrd
        exact absurd hx (by omega)
  · simp only [if_neg hfs]
    constructor
    · show 1 + 1 ≤ (getFormat format_type).speech_order.length
      omega
    · constructor
      · intro hcon
        have hx : ("in_progress" : String) = "completed" := hcon
        exact absurd hx (by decide)
      · intro hrd
        have hx : 1 + 1 = (getFormat format_type).speech_order.length := hrd
        exact absurd hx (by omega)

theorem process_user_speech_inv (aiResp speech_text speech_type : String)
    (s : DebateSession) (h : DebateInv s) :
    DebateInv (process_user_speech aiResp s speech_text speech_type).1 := by
  obtain ⟨h1, h2⟩ := h
  unfold DebateInv process_user_speech
  by_cases hlt : s.round < s.speech_order.length
  · simp only [if_pos hlt]
    by_cases he : s.speech_order.length ≤ s.round + 1
    · simp only [if_pos he]
      constructor
      · show s.round + 1 ≤ s.speech_order.length
        omega
      · constructor
        · intro _
          show s.round + 1 = s.speech_order.length
          omega
        · intro _
          trivial
    · simp only [if_neg he]
      constructor
      · show s.round + 1 ≤ s.speech_order.length
        omega
      · constructor
        · intro hc
          have hx : s.status = "completed" := hc
          have : s.round = s.speech_order.length := h2.mp hx
          omega
        · intro hc
          have hx : s.round + 1 = s.speech_order.length := hc
          exact absurd hx (by omega)
  · have heq : s.round = s.speech_order.length := by omega
    simp only [if_neg hlt]
    simp only [if_pos (Nat.not_lt.mp hlt)]
    constructor
    · show s.round ≤ s.speech_order.length
      omega
    · constructor
      · intro _
        show s.round = s.speech_order.length
        exact heq
      · intro _
        trivial

theorem runSpeeches_inv (inputs : List (String × String × String))
    (s : DebateSession) (h : DebateInv s) :
    DebateInv (runSpeeches s inputs) := by
  induction inputs generalizing s with
  | nil => exact h
  | cons i rest ih =>
      have hstep := process_user_speech_inv i.2.2 i.1 i.2.1 s h
      exact ih _ hstep

/-- C8: for any session produced by `start_debate` and any sequence of
`submitSpeech` calls, the round counter never exceeds the speech-order
length, and the status is `completed` exactly when the counter equals
that length; `end_debate` (the explicit `endSession`) always forces
`completed`. -/
theorem c8_round_bound_and_completion :
    (∀ (aiOpen motion format_type difficulty user_position : String)
       (inputs : List (String × String × String)),
      (runSpeeches (start_debate aiOpen motion format_type difficulty
        user_position) inputs).round
        ≤ (runSpeeches (start_debate aiOpen motion format_type difficulty
          user_position) inputs).speech_order.length ∧
      ((runSpeeches (start_debate aiOpen motion format_type difficulty
        user_position) inputs).status = "completed" ↔
        (runSpeeches (start_debate aiOpen motion format_type difficulty
          user_position) inputs).round
          = (runSpeeches (start_debate aiOpen motion format_type difficulty
            user_position) inputs).speech_order.length)) ∧
    (∀ (evalScore : String → ℤ) (fb : String → String) (s : DebateSession),
      (end_debate evalScore fb s).2.status = "completed") := by
  constructor
  · intro aiOpen motion format_type difficulty user_position inputs
    exact runSpeeches_inv inputs _
      (start_debate_inv aiOpen motion format_type difficulty user_position)
  · intro evalScore fb s
    rfl

/-- C9: achievement evaluation is pure.  The source of
`check_achievements`/`_check_achievement_criteria` contains no assignment
to `user_profile` (reads only), so its state-threaded translation
`check_achievements_run` returns the profile unchanged; consequently a
second call on the profile returned by the first yields the identical
achievement list, and the profile after both calls is the original. -/
theorem c9_achievement_evaluation_pure :
    ∀ p : UserProfile,
      (check_achievements_run p).2 = p ∧
      (check_achievements_run ((check_achievements_run p).2)).1
        = (check_achievements_run p).1 ∧
      (check_achievements_run ((check_achievements_run p).2)).2 = p :=
  fun _ => ⟨rfl, rfl, rfl⟩

/-- C6: the final evaluation averages the offset (-15) human speech
scores, reports that average rounded to one decimal, and converts the
unrounded average to points by `int(avg * 0.5)`; with zero human speeches
it returns score 0, points 0 and the explicit nothing-to-evaluate
marker instead of failing. -/
theorem c6_final_evaluation_contract :
    ∀ (evalScore : String → ℤ) (fb : String → String) (s : DebateSession),
      (s.speeches.filter (fun sp => sp.speaker = "user") = [] →
        (end_debate evalScore fb s).1.overall_score = 0 ∧
        (end_debate evalScore fb s).1.points = 0 ∧
        (end_debate evalScore fb s).1.speech_count = 0 ∧
        (end_debate evalScore fb s).1.detailed_feedback =
          "No speeches to evaluate. This may be due to session storage issues.") ∧
      (s.speeches.filter (fun sp => sp.speaker = "user") ≠ [] →
        (end_debate evalScore fb s).1.overall_score =
          pyRound1 (((((s.speeches.filter (fun sp => sp.speaker = "user")).map
            (fun sp => evalScore sp.content - 15)).sum : ℤ) : ℚ) /
            ((s.speeches.filter (fun sp => sp.speaker = "user")).length : ℚ)) ∧
        (end_debate evalScore fb s).1.points =
          pyInt ((((((s.speeches.filter (fun sp => sp.speaker = "user")).map
            (fun sp => evalScore sp.content - 15)).sum : ℤ) : ℚ) /
            ((s.speeches.filter (fun sp => sp.speaker = "user")).length : ℚ))
            * (1/2)) ∧
        (end_debate evalScore fb s).1.speech_count =
          (s.speeches.filter (fun sp => sp.speaker = "user")).length) := by
  intro evalScore fb s
  constructor
  · intro h0
    unfold end_debate generate_final_evaluation
    simp only [h0]
    simp
  · intro hne
    unfold end_debate generate_final_evaluation
    simp only []
    rw [if_neg (by simpa using hne)]
    exact ⟨rfl, rfl, rfl⟩

/-- Witness for `c6_final_evaluation_contract`: the empty session yields
the zero evaluation, and the two-speech session (scores 80 and 90, so the
offset average is 70) yields overall 70 and 35 points. -/
theorem c6_final_evaluation_contract_witness :
    ((end_debate scoreOracle (fun _ => "fb") sessionNoUserSpeeches).1.overall_score
        = 0 ∧
      (end_debate scoreOracle (fun _ => "fb")
        sessionNoUserSpeeches).1.points = 0) ∧
    ((end_debate scoreOracle (fun _ => "fb")
        sessionTwoUserSpeeches).1.overall_score = 70 ∧
      (end_debate scoreOracle (fun _ => "fb")
        sessionTwoUserSpeeches).1.points = 35) := by
  have h1 := (c6_final_evaluation_contract scoreOracle (fun _ => "fb")
    sessionNoUserSpeeches).1 (by decide)
  have h2 := (c6_final_evaluation_contract scoreOracle (fun _ => "fb")
    sessionTwoUserSpeeches).2 (by decide)
  have hf : sessionTwoUserSpeeches.speeches.filter
      (fun sp => sp.speaker = "user") =
      [⟨"user", "constructive", "x"⟩, ⟨"user", "rebuttal", "y"⟩] := by decide
  rw [hf] at h2
  have hy : (if ("y" : String) = "x" then (80 : ℤ) else 90) = 90 := by decide
  refine ⟨⟨h1.1, h1.2.1⟩, ?_, ?_⟩
  · rw [h2.1]
    simp only [scoreOracle, List.map_cons, List.map_nil, hy]
    norm_num [pyRound1, pyRoundHalfEven]
  · rw [h2.2.1]
    simp only [scoreOracle, List.map_cons, List.map_nil, hy]
    norm_num [pyInt]

theorem foldl_addParticipant_flatten (ts : List (List TParticipant))
    (acc : List LBEntry) :
    ts.foldl (fun a t => t.foldl addParticipant a) acc
      = (ts.flatten).foldl addParticipant acc := by
  induction ts generalizing acc with
  | nil => rfl
  | cons t ts ih => simp [List.flatten_cons, List.foldl_append, ih]

/-- Processing one record updates the entry under its name and leaves
every other name's entry alone. -/
theorem lbFind_addParticipant (acc : List LBEntry) (p : TParticipant)
    (n : String) :
    lbFind (addParticipant acc p) n =
      if n = p.name then
        some (match lbFind acc p.name with
              | some e => mergeInto e p
              | none => newEntry p)
      else lbFind acc n := by
  induction acc with
  | nil =>
      by_cases h : n = p.name
      · rw [if_pos h]
        show List.find? _ [newEntry p] = _
        rw [List.find?_cons_of_pos _ (by simp [newEntry, h])]
        rfl
      · rw [if_neg h]
        show List.find? _ [newEntry p] = _
        rw [List.find?_cons_of_neg _ (by simp [newEntry]; exact fun hh => h hh.symm)]
        rfl
  | cons e rest ih =>
      by_cases hep : e.name = p.name
      · have hred : addParticipant (e :: rest) p = mergeInto e p :: rest := by
          simp [addParticipant, hep]
        rw [hred]
        by_cases hn : n = p.name
        · rw [if_pos hn]
          unfold lbFind
          rw [List.find?_cons_of_pos _ (by simp [mergeInto]; rw [hep, hn])]
          rw [List.find?_cons_of_pos _ (by simp [hep])]
        · rw [if_neg hn]
          have hen : ¬ e.name = n := fun hh => hn ((hh.symm.trans hep).symm ▸ rfl)
          unfold lbFind
          rw [List.find?_cons_of_neg _
            (by simp [mergeInto]; exact fun hh => hn (hh ▸ hep))]
          rw [List.find?_cons_of_neg _ (by simpa using hen)]
      · have hred : addParticipant (e :: rest) p = e :: addParticipant rest p := by
          simp [addParticipant, hep]
        rw [hred]
        by_cases hen : e.name = n
        · have hn : ¬ n = p.name := fun hh => hep (hen.trans hh)
          rw [if_neg hn]
          unfold lbFind
          rw [List.find?_cons_of_pos _ (by simpa using hen)]
          rw [List.find?_cons_of_pos _ (by simpa using hen)]
        · unfold lbFind at ih ⊢
          rw [List.find?_cons_of_neg _ (by simpa using hen)]
          by_cases hn : n = p.name
          · rw [if_pos hn] at ih ⊢
            rw [List.find?_cons_of_neg _ (by simpa using hep)]
            exact ih
          · rw [if_neg hn] at ih ⊢
            rw [List.find?_cons_of_neg _ (by simpa using hen)]
            exact ih

/-- The fold's entry under a name is the reference fold of that name's
records. -/
theorem lbFind_foldl_addParticipant (l : List TParticipant)
    (acc : List LBEntry) (n : String) :
    lbFind (l.foldl addParticipant acc) n =
      foldRecords (lbFind acc n) (l.filter (fun p => p.name = n)) := by
  induction l generalizing acc with
  | nil => rfl
  | cons p l ih =>
      rw [List.foldl_cons, ih]
      by_cases h : p.name = n
      · rw [List.filter_cons_of_pos (by simpa using h)]
        rw [lbFind_addParticipant]
        rw [if_pos h.symm]
        subst h
        rfl
      · rw [List.filter_cons_of_neg (by simpa using h)]
        rw [lbFind_addParticipant]
        rw [if_neg (fun hh => h hh.symm)]

/-- Closed form of the reference fold started from an existing entry. -/
theorem foldRecords_some_spec (recs : List TParticipant) (e : LBEntry) :
    foldRecords (some e) recs = some
      { name := e.name
        matches_played :=
          e.matches_played + (recs.map (fun p => p.matches_played)).sum
        matches_won := e.matches_won + (recs.map (fun p => p.matches_won)).sum
        total_points :=
          e.total_points + (recs.map (fun p => p.total_points)).sum
        win_rate := e.win_rate
        tournaments_participated :=
          e.tournaments_participated + recs.length
        tournaments_won := e.tournaments_won +
          (recs.filter (fun p => p.matches_won > 0)).length } := by
  induction recs generalizing e with
  | nil => simp [foldRecords]
  | cons p recs ih =>
      have hstep : foldRecords (some e) (p :: recs)
          = foldRecords (some (mergeInto e p)) recs := rfl
      rw [hstep, ih]
      simp only [mergeInto, List.map_cons, List.sum_cons, List.length_cons]
      by_cases hw : p.matches_won > 0
      · rw [List.filter_cons_of_pos (by simpa using hw), if_pos hw]
        rw [Option.some.injEq, LBEntry.mk.injEq]
        refine ⟨rfl, by omega, by omega, by omega, rfl, by omega, ?_⟩
        simp only [List.length_cons]
        omega
      · rw [List.filter_cons_of_neg (by simpa using hw), if_neg hw]
        rw [Option.some.injEq, LBEntry.mk.injEq]
        exact ⟨rfl, by omega, by omega, by omega, rfl, by omega, by omega⟩

/-- Closed form of the reference fold from nothing (non-empty records). -/
theorem foldRecords_none_spec (p : TParticipant) (recs : List TParticipant) :
    foldRecords none (p :: recs) = some
      { name := p.name
        matches_played :=
          p.matches_played + (recs.map (fun q => q.matches_played)).sum
        matches_won := p.matches_won + (recs.map (fun q => q.matches_won)).sum
        total_points :=
          p.total_points + (recs.map (fun q => q.total_points)).sum
        win_rate := p.win_rate
        tournaments_participated := 1 + recs.length
        tournaments_won := (if p.matches_won > 0 then 1 else 0) +
          (recs.filter (fun q => q.matches_won > 0)).length } := by
  have hstep : foldRecords none (p :: recs)
      = foldRecords (some (newEntry p)) recs := rfl
  rw [hstep, foldRecords_some_spec]
  rfl

/-- With distinct names inside one tournament, that tournament has at most
one record per name. -/
theorem filter_name_length_of_nodup (t : List TParticipant) (n : String)
    (h : (t.map (fun p => p.name)).Nodup) :
    (t.filter (fun p => p.name = n)).length
      = if t.any (fun p => p.name = n) then 1 else 0 := by
  induction t with
  | nil => simp
  | cons p t ih =>
      simp only [List.map_cons, List.nodup_cons] at h
      by_cases hp : p.name = n
      · rw [List.filter_cons_of_pos (by simpa using hp)]
        have hnone : t.filter (fun q => q.name = n) = [] := by
          rw [List.filter_eq_nil_iff]
          intro q hq
          simp only [decide_eq_true_eq]
          intro hqn
          exact h.1 (hp ▸ hqn ▸ List.mem_map_of_mem (fun r => r.name) hq)
        rw [hnone]
        simp [List.any_cons, hp]
      · rw [List.filter_cons_of_neg (by simpa using hp)]
        rw [ih h.2]
        simp [List.any_cons, hp]

/-- Record count of a name equals the number of tournaments containing it,
when names are unique within each tournament. -/
theorem recordsOf_length (ts : List (List TParticipant)) (n : String)
    (h : ∀ t ∈ ts, (t.map (fun p => p.name)).Nodup) :
    (recordsOf ts n).length
      = ts.countP (fun t => t.any (fun p => p.name = n)) := by
  induction ts with
  | nil => rfl
  | cons t ts ih =>
      unfold recordsOf at *
      rw [List.flatten_cons, List.filter_append, List.length_append]
      rw [ih (fun u hu => h u (List.mem_cons_of_mem t hu))]
      rw [filter_name_length_of_nodup t n (h t (List.mem_cons_self t ts))]
      rw [List.countP_cons]
      by_cases ha : t.any (fun p => p.name = n)
      · simp [ha]
        omega
      · simp [ha]

/-- C7: the global leaderboard fold merges records by participant name —
the entry filed under a name carries the sums of `total_points`,
`matches_played` and `matches_won` over that name's per-tournament
records, `tournaments_participated` counts the tournaments containing the
name (names unique within each tournament), and `tournaments_won` counts
the tournaments whose record contributed at least one win; every entry of
the returned leaderboard has `win_rate = matches_won / matches_played *
100` rounded to one decimal (0 when no matches); and the merge of two
tournaments holding "Priya Patel" with 312 and 100 points yields her
entry with `total_points = 412` and `tournaments_participated = 2`. -/
theorem c7_global_leaderboard_merge :
    (∀ (ts : List (List TParticipant)) (n : String) (e : LBEntry),
      (∀ t ∈ ts, (t.map (fun p => p.name)).Nodup) →
      lbFind (ts.foldl (fun acc t => t.foldl addParticipant acc) []) n
        = some e →
      e.total_points = ((recordsOf ts n).map (fun p => p.total_points)).sum ∧
      e.matches_played
        = ((recordsOf ts n).map (fun p => p.matches_played)).sum ∧
      e.matches_won = ((recordsOf ts n).map (fun p => p.matches_won)).sum ∧
      e.tournaments_participated
        = ts.countP (fun t => t.any (fun p => p.name = n)) ∧
      e.tournaments_won
        = ((recordsOf ts n).filter (fun p => p.matches_won > 0)).length) ∧
    (∀ (ts : List (List TParticipant)) (sort_by : String) (e : LBEntry),
      e ∈ get_tournament_leaderboard_global ts sort_by →
      e.win_rate = if e.matches_played > 0
        then pyRound1 ((e.matches_won : ℚ) / (e.matches_played : ℚ) * 100)
        else 0) ∧
    ((lbFind ([[⟨"Priya Patel", 4, 2, 312, 0⟩, ⟨"Arjun Sharma", 4, 2, 250, 0⟩],
        [⟨"Priya Patel", 4, 2, 100, 0⟩]].foldl
          (fun acc t => t.foldl addParticipant acc) []) "Priya Patel").map
      (fun e => (e.total_points, e.tournaments_participated))) =
      some (412, 2) := by
  refine ⟨?_, ?_, by decide⟩
  · intro ts n e hnd hfind
    rw [foldl_addParticipant_flatten, lbFind_foldl_addParticipant] at hfind
    cases hrec : ts.flatten.filter (fun p => p.name = n) with
    | nil =>
        rw [hrec] at hfind
        exact absurd hfind (by simp [foldRecords, lbFind, List.find?])
    | cons p recs =>
        rw [hrec] at hfind
        rw [show lbFind [] n = none from rfl] at hfind
        rw [foldRecords_none_spec] at hfind
        have he := (Option.some.inj hfind).symm
        subst he
        have hrof : recordsOf ts n = p :: recs := hrec
        rw [hrof]
        refine ⟨by simp, by simp, by simp, ?_, ?_⟩
        · rw [← recordsOf_length ts n hnd, hrof]
          simp only [List.length_cons]
          omega
        · by_cases hw : p.matches_won > 0
          · rw [List.filter_cons_of_pos (by simpa using hw), if_pos hw]
            simp only [List.length_cons]
            omega
          · rw [List.filter_cons_of_neg (by simpa using hw), if_neg hw]
            simp
  · intro ts sort_by e he
    unfold get_tournament_leaderboard_global at he
    split_ifs at he <;>
      [rw [List.mem_mergeSort] at he; rw [List.mem_mergeSort] at he;
       rw [List.mem_mergeSort] at he; skip] <;>
    · obtain ⟨e0, _, rfl⟩ := List.mem_map.mp he
      rfl

/-- Witness for `c7_global_leaderboard_merge` at a one-tournament,
one-participant registry. -/
theorem c7_global_leaderboard_merge_witness :
    ((newEntry ⟨"P", 2, 1, 10, 0⟩).total_points
        = ((recordsOf [[⟨"P", 2, 1, 10, 0⟩]] "P").map
          (fun p => p.total_points)).sum ∧
      (newEntry ⟨"P", 2, 1, 10, 0⟩).matches_played
        = ((recordsOf [[⟨"P", 2, 1, 10, 0⟩]] "P").map
          (fun p => p.matches_played)).sum ∧
      (newEntry ⟨"P", 2, 1, 10, 0⟩).matches_won
        = ((recordsOf [[⟨"P", 2, 1, 10, 0⟩]] "P").map
          (fun p => p.matches_won)).sum ∧
      (newEntry ⟨"P", 2, 1, 10, 0⟩).tournaments_participated
        = [[(⟨"P", 2, 1, 10, 0⟩ : TParticipant)]].countP
          (fun t => t.any (fun p => p.name = "P")) ∧
      (newEntry ⟨"P", 2, 1, 10, 0⟩).tournaments_won
        = ((recordsOf [[⟨"P", 2, 1, 10, 0⟩]] "P").filter
          (fun p => p.matches_won > 0)).length) ∧
    ((computeWinRate (newEntry ⟨"P", 2, 1, 10, 0⟩)).win_rate =
      if (computeWinRate (newEntry ⟨"P", 2, 1, 10, 0⟩)).matches_played > 0
      then pyRound1
        (((computeWinRate (newEntry ⟨"P", 2, 1, 10, 0⟩)).matches_won : ℚ)
          / ((computeWinRate
            (newEntry ⟨"P", 2, 1, 10, 0⟩)).matches_played : ℚ) * 100)
      else 0) :=
  ⟨c7_global_leaderboard_merge.1 [[⟨"P", 2, 1, 10, 0⟩]] "P"
      (newEntry ⟨"P", 2, 1, 10, 0⟩) (by decide) rfl,
   c7_global_leaderboard_merge.2.1 [[⟨"P", 2, 1, 10, 0⟩]] "nosort"
      (computeWinRate (newEntry ⟨"P", 2, 1, 10, 0⟩))
      (by simp [get_tournament_leaderboard_global, addParticipant])⟩

end ArgueSage
